import Mathlib

/-!
Verification of the command subsystem of the Pumpkin server
(`pumpkin/src/command/mod.rs`): the `CommandSender` capability surface,
`default_dispatcher`, and — modelled from the specification where the
corresponding modules (`dispatcher`, `tree`, `args`, tokenizer) are not part
of the available sources — the command-tree traversal, dispatch, and
suggestion driver.
-/

namespace Pumpkin

/-- Modelled from the spec: `pumpkin_util::permission::PermissionLvl` is not
among the available sources; the spec describes "four ordered levels,
Console/Rcon always highest", and the source references the constructors
`Zero`, `Two`, `Three`, `Four`. -/
inductive PermissionLvl where
  | Zero
  | Two
  | Three
  | Four
deriving DecidableEq, Repr

/-- Numeric rank of a permission level, fixing the order
`Zero < Two < Three < Four`. -/
def PermissionLvl.toNat : PermissionLvl → Nat
  | .Zero => 0
  | .Two => 2
  | .Three => 3
  | .Four => 4

instance : LE PermissionLvl := ⟨fun a b => a.toNat ≤ b.toNat⟩

instance : LT PermissionLvl := ⟨fun a b => a.toNat < b.toNat⟩

instance (a b : PermissionLvl) : Decidable (a ≤ b) :=
  inferInstanceAs (Decidable (a.toNat ≤ b.toNat))

instance (a b : PermissionLvl) : Decidable (a < b) :=
  inferInstanceAs (Decidable (a.toNat < b.toNat))

/-- Rust `PartialOrd::ge` on permission levels, as used by
`has_permission_lvl` (`p.permission_lvl.load().ge(&lvl)`). -/
def PermissionLvl.ge (a b : PermissionLvl) : Bool := b.toNat ≤ a.toNat

/-- Three-component vector, mirroring `pumpkin_util::math::vector3::Vector3`;
positions in the source are `Vector3<f64>`. -/
structure Vector3 (α : Type) where
  x : α
  y : α
  z : α

/-- Handle to a world, mirroring `Arc<World>`; its internals are outside the
command module, so it is abstracted to an identifier. -/
structure World where
  id : Nat

/-- The player's profile; the command module reads only the name
(`p.gameprofile.name`). -/
structure GameProfile where
  name : String

/-- Mirrors `Entity`: the command module reads `pos` (an `AtomicCell` load,
modelled as a plain field) and `world` (an `RwLock<Arc<World>>` read,
modelled as a plain field). -/
structure Entity where
  pos : Vector3 Float
  world : World

/-- Mirrors `LivingEntity` as read through `p.living_entity.entity`. -/
structure LivingEntity where
  entity : Entity

/-- Mirrors the fields of `Player` that the command module reads:
`gameprofile`, `living_entity`, the stored permission level
(`p.permission_lvl.load()`), and the permission set returned by
`p.get_permissions()`. -/
structure Player where
  gameprofile : GameProfile
  living_entity : LivingEntity
  permission_lvl : PermissionLvl
  permissions : List String

/-- Mirrors `enum CommandSender<'a>`: `Rcon(&'a tokio::sync::Mutex<Vec<String>>)`
(the buffer contents stand in for the mutex-guarded vector), `Console`, and
`Player(Arc<Player>)`. -/
inductive CommandSender where
  | rcon (buffer : List String)
  | console
  | player (p : Player)

namespace CommandSender

/-- Mirrors `CommandSender::is_player`. -/
def is_player : CommandSender → Bool
  | .player _ => true
  | _ => false

/-- Mirrors `CommandSender::is_console`. -/
def is_console : CommandSender → Bool
  | .console => true
  | _ => false

/-- Mirrors `CommandSender::as_player` (the `Arc` clone is value sharing). -/
def as_player : CommandSender → Option Player
  | .player p => some p
  | _ => none

/-- Mirrors `CommandSender::permission_lvl`: Console and Rcon report
`PermissionLvl::Four`, a player reports its stored level. -/
def permission_lvl : CommandSender → PermissionLvl
  | .console => .Four
  | .rcon _ => .Four
  | .player p => p.permission_lvl

/-- Mirrors `CommandSender::has_permission_lvl`: Console and Rcon always
pass, a player passes iff its stored level is `.ge` the required one. -/
def has_permission_lvl : CommandSender → PermissionLvl → Bool
  | .console, _ => true
  | .rcon _, _ => true
  | .player p, lvl => p.permission_lvl.ge lvl

/-- Mirrors `CommandSender::has_permission`: Console and Rcon always pass, a
player passes iff the exact permission string is contained in
`p.get_permissions()`. -/
def has_permission : CommandSender → String → Bool
  | .console, _ => true
  | .rcon _, _ => true
  | .player p, permission => p.permissions.contains permission

/-- Mirrors `CommandSender::position`: `None` for Console and Rcon, the
entity's position for a player. -/
def position : CommandSender → Option (Vector3 Float)
  | .console => none
  | .rcon _ => none
  | .player p => some p.living_entity.entity.pos

/-- Mirrors `CommandSender::world`: `None` for Console and Rcon, the entity's
world for a player (the `await`ed `RwLock` read is modelled as a field
read). -/
def world : CommandSender → Option World
  | .console => none
  | .rcon _ => none
  | .player p => some p.living_entity.entity.world

end CommandSender

/-- One `dispatcher.register(tree, node, lvl)` call as visible in `mod.rs`:
the module whose `init_command_tree()` supplied the tree, the permission-node
string, and the minimum permission level. The trees themselves are built in
the per-command modules, which are not among the sources. -/
structure Registration where
  module : String
  node : String
  lvl : PermissionLvl
deriving DecidableEq, Repr

/-- The dispatcher's registration sequence, in the order the
`dispatcher.register` calls are made. -/
structure CommandDispatcher where
  registrations : List Registration
deriving DecidableEq, Repr

/-- Mirrors `CommandDispatcher::default()`: no registrations. -/
def CommandDispatcher.default : CommandDispatcher := ⟨[]⟩

/-- Mirrors one `dispatcher.register(<module>::init_command_tree(), node, lvl)`
call: appends the registration. -/
def CommandDispatcher.register (d : CommandDispatcher) (module node : String)
    (lvl : PermissionLvl) : CommandDispatcher :=
  ⟨d.registrations ++ [⟨module, node, lvl⟩]⟩

/-- Mirrors `default_dispatcher()`: the 36 `register` calls of
`pumpkin/src/command/mod.rs`, in source order. -/
def default_dispatcher : CommandDispatcher :=
  CommandDispatcher.default
    |>.register "pumpkin" "pumpkin.pumpkin" .Zero
    |>.register "help" "pumpkin.help" .Zero
    |>.register "list" "pumpkin.list" .Zero
    |>.register "me" "pumpkin.me" .Zero
    |>.register "msg" "pumpkin.msg" .Zero
    |>.register "kill" "pumpkin.kill" .Two
    |>.register "worldborder" "pumpkin.worldborder" .Two
    |>.register "teleport" "pumpkin.teleport" .Two
    |>.register "time" "pumpkin.time" .Two
    |>.register "give" "pumpkin.give" .Two
    |>.register "clear" "pumpkin.clear" .Two
    |>.register "setblock" "pumpkin.setblock" .Two
    |>.register "seed" "pumpkin.seed" .Two
    |>.register "fill" "pumpkin.fill" .Two
    |>.register "playsound" "pumpkin.playsound" .Two
    |>.register "title" "pumpkin.title" .Two
    |>.register "summon" "pumpkin.summon" .Two
    |>.register "experience" "pumpkin.experience" .Two
    |>.register "weather" "pumpkin.weather" .Two
    |>.register "particle" "pumpkin.particle" .Two
    |>.register "damage" "pumpkin.damage" .Two
    |>.register "bossbar" "pumpkin.bossbar" .Two
    |>.register "say" "pumpkin.say" .Two
    |>.register "gamemode" "pumpkin.gamemode" .Two
    |>.register "transfer" "pumpkin.transfer" .Two
    |>.register "op" "pumpkin.op" .Three
    |>.register "deop" "pumpkin.deop" .Three
    |>.register "kick" "pumpkin.kick" .Three
    |>.register "plugin" "pumpkin.plugin" .Three
    |>.register "plugins" "pumpkin.plugins" .Three
    |>.register "ban" "pumpkin.ban" .Three
    |>.register "banip" "pumpkin.banip" .Three
    |>.register "banlist" "pumpkin.banlist" .Three
    |>.register "pardon" "pumpkin.pardon" .Three
    |>.register "pardonip" "pumpkin.pardonip" .Three
    |>.register "stop" "pumpkin.stop" .Four

/-- The five modules registered at level `Zero`. -/
def zeroLevelModules : List String := ["pumpkin", "help", "list", "me", "msg"]

/-- The ten modules registered at level `Three`. -/
def threeLevelModules : List String :=
  ["op", "deop", "kick", "plugin", "plugins", "ban", "banip", "banlist",
   "pardon", "pardonip"]

/-- Every permission level is at most `Four`. -/
theorem PermissionLvl.le_Four (lvl : PermissionLvl) : lvl ≤ PermissionLvl.Four := by
  cases lvl <;> decide

/-- C1: `has_permission` returns `true` for every permission-node string when
the sender is Console or Rcon; for a Player sender it returns `true` iff the
exact string is a member of the player's permission set. -/
theorem has_permission_spec (node : String) (buf : List String) (p : Player) :
    CommandSender.has_permission .console node = true
    ∧ CommandSender.has_permission (.rcon buf) node = true
    ∧ (CommandSender.has_permission (.player p) node = true ↔ node ∈ p.permissions) := by
  refine ⟨rfl, rfl, ?_⟩
  simp [CommandSender.has_permission, List.elem_eq_mem]

/-- C2: Console and Rcon senders report permission level `Four`, which is the
highest of the four ordered levels, hence `has_permission_lvl` holds for
every level for them; a Player sender reports its stored level. -/
theorem permission_lvl_spec (buf : List String) (p : Player) (lvl : PermissionLvl) :
    CommandSender.permission_lvl .console = .Four
    ∧ CommandSender.permission_lvl (.rcon buf) = .Four
    ∧ lvl ≤ PermissionLvl.Four
    ∧ CommandSender.has_permission_lvl .console lvl = true
    ∧ CommandSender.has_permission_lvl (.rcon buf) lvl = true
    ∧ CommandSender.permission_lvl (.player p) = p.permission_lvl :=
  ⟨rfl, rfl, PermissionLvl.le_Four lvl, rfl, rfl, rfl⟩

/-- C5: `position` and `world` are `none` for Console and Rcon senders and
return the player's current position and world for a Player sender. -/
theorem position_world_spec (buf : List String) (p : Player) :
    CommandSender.position .console = none
    ∧ CommandSender.position (.rcon buf) = none
    ∧ CommandSender.position (.player p) = some p.living_entity.entity.pos
    ∧ CommandSender.world .console = none
    ∧ CommandSender.world (.rcon buf) = none
    ∧ CommandSender.world (.player p) = some p.living_entity.entity.world :=
  ⟨rfl, rfl, rfl, rfl, rfl, rfl⟩

/-- `has_permission_lvl` holds exactly when the required level is at most
the sender's `permission_lvl`. -/
theorem has_permission_lvl_le (s : CommandSender) (lvl : PermissionLvl) :
    s.has_permission_lvl lvl = true ↔ lvl ≤ s.permission_lvl := by
  cases s with
  | console =>
      simp [CommandSender.has_permission_lvl, CommandSender.permission_lvl,
        PermissionLvl.le_Four lvl]
  | rcon buf =>
      simp [CommandSender.has_permission_lvl, CommandSender.permission_lvl,
        PermissionLvl.le_Four lvl]
  | player p =>
      simp [CommandSender.has_permission_lvl, CommandSender.permission_lvl,
        PermissionLvl.ge]
      exact Iff.rfl

/-- C8: for every sender and level, `has_permission_lvl` returns true iff
the required level is at most the sender's `permission_lvl`: the two
capability functions are mutually consistent. -/
theorem has_permission_lvl_iff_le (s : CommandSender) (lvl : PermissionLvl) :
    s.has_permission_lvl lvl = true ↔ lvl ≤ s.permission_lvl :=
  has_permission_lvl_le s lvl

/-- C10: `as_player` is `some` of the underlying player exactly on the
`Player` variant (so it is `some` iff `is_player`), `is_player` and
`is_console` are never both true, and on the `Rcon` variant both are
false. -/
theorem as_player_spec (buf : List String) :
    (∀ p, CommandSender.as_player (.player p) = some p)
    ∧ (∀ s : CommandSender, (s.as_player).isSome = s.is_player)
    ∧ (∀ s : CommandSender, ¬(s.is_player = true ∧ s.is_console = true))
    ∧ CommandSender.is_player (.rcon buf) = false
    ∧ CommandSender.is_console (.rcon buf) = false := by
  refine ⟨fun p => rfl, fun s => ?_, fun s => ?_, rfl, rfl⟩
  · cases s <;> rfl
  · cases s <;> simp [CommandSender.is_player, CommandSender.is_console]

/-- C9: `default_dispatcher` performs exactly 36 registrations, each with
permission node `"pumpkin."` followed by the module name; level `Zero` goes
exactly to pumpkin, help, list, me, msg; level `Three` exactly to op, deop,
kick, plugin, plugins, ban, banip, banlist, pardon, pardonip; level `Four`
exactly to stop; level `Two` to every other registered command. -/
theorem default_dispatcher_spec :
    default_dispatcher.registrations.length = 36
    ∧ (∀ r ∈ default_dispatcher.registrations, r.node = "pumpkin." ++ r.module)
    ∧ (∀ r ∈ default_dispatcher.registrations,
        (r.lvl = .Zero ↔ r.module ∈ zeroLevelModules)
        ∧ (r.lvl = .Three ↔ r.module ∈ threeLevelModules)
        ∧ (r.lvl = .Four ↔ r.module = "stop")
        ∧ (r.lvl = .Two ↔
            (r.module ∉ zeroLevelModules ∧ r.module ∉ threeLevelModules
              ∧ r.module ≠ "stop"))) := by
  decide

/-- A text message; `TextComponent` comes from `pumpkin_util::text`, which is
not among the sources, so the component is abstracted to its pretty-console
rendering. -/
structure TextComponent where
  prettyConsole : String

/-- Mirrors `TextComponent::to_pretty_console`, abstracted to reading the
carried rendering. -/
def TextComponent.to_pretty_console (t : TextComponent) : String := t.prettyConsole

/-- The state of the `tokio::sync::Mutex<Vec<String>>` held by an Rcon
sender: whether the mutex is currently held, and the buffered strings. -/
structure RconBuffer where
  locked : Bool
  data : List String
deriving DecidableEq, Repr

/-- The primitive steps of `s.lock().await.push(...)`: acquiring the mutex,
pushing one string, releasing the mutex (the guard drop). -/
inductive RconOp where
  | acquire
  | push (s : String)
  | release
deriving DecidableEq, Repr

/-- Small-step semantics of the mutex-guarded buffer: `acquire` succeeds only
when the mutex is free, `push` and `release` only while it is held. -/
def runOp : RconBuffer → RconOp → Option RconBuffer
  | ⟨false, d⟩, .acquire => some ⟨true, d⟩
  | ⟨true, _⟩, .acquire => none
  | ⟨true, d⟩, .push s => some ⟨true, d ++ [s]⟩
  | ⟨false, _⟩, .push _ => none
  | ⟨true, d⟩, .release => some ⟨false, d⟩
  | ⟨false, _⟩, .release => none

/-- Runs a sequence of buffer operations from a starting state. -/
def runOps (st : RconBuffer) (ops : List RconOp) : Option RconBuffer :=
  ops.foldlM runOp st

/-- Mirrors the Rcon arm of `CommandSender::send_message`
(`s.lock().await.push(text.to_pretty_console())`) as its step sequence. -/
def sendMessageRconOps (text : TextComponent) : List RconOp :=
  [.acquire, .push text.to_pretty_console, .release]

/-- The observable action of `CommandSender::send_message`: Console logs the
pretty-console rendering, a Player receives the component as a system
message, Rcon performs the mutex-guarded push. -/
inductive MessageAction where
  | logInfo (s : String)
  | systemMessage (t : TextComponent)
  | rconOps (ops : List RconOp)

/-- Mirrors the match of `CommandSender::send_message`. -/
def CommandSender.send_message : CommandSender → TextComponent → MessageAction
  | .console, t => .logInfo t.to_pretty_console
  | .player _, t => .systemMessage t
  | .rcon _, t => .rconOps (sendMessageRconOps t)

/-- C6: for an Rcon sender, `send_message` performs the mutex-guarded step
sequence which, from an unlocked buffer, releases the mutex again having
appended exactly the pretty-console rendering at the end; every previously
buffered string is unchanged; and a push without holding the mutex is not
possible in the step semantics. -/
theorem send_message_rcon_spec (buf : List String) (text : TextComponent) :
    CommandSender.send_message (.rcon buf) text = .rconOps (sendMessageRconOps text)
    ∧ runOps ⟨false, buf⟩ (sendMessageRconOps text)
        = some ⟨false, buf ++ [text.to_pretty_console]⟩
    ∧ (buf ++ [text.to_pretty_console]).take buf.length = buf
    ∧ (buf ++ [text.to_pretty_console]).length = buf.length + 1
    ∧ (∀ s, runOp ⟨false, buf⟩ (.push s) = none) := by
  refine ⟨rfl, rfl, ?_, ?_, fun s => rfl⟩
  · simp [List.take_append]
  · simp

/-- One token produced by the tokenizer: its text and the offsets of its
source span. -/
structure Token where
  text : String
  startOff : Nat
  endOff : Nat
deriving DecidableEq, Repr

/-- Tokenizer scanning mode: between tokens, inside an unquoted word, inside
a quoted token, or right after a backslash inside a quoted token. -/
inductive TokMode where
  | ready
  | word (startOff : Nat) (acc : String)
  | quoted (openOff : Nat) (acc : String)
  | quotedEscape (openOff : Nat) (acc : String)

/-- Modelled from the spec: the tokenizer (`§4.1`) is not among the sources.
Splits on unquoted spaces, supports `"..."` quoting with backslash escaping
of the quote character, records each token's span, and fails with the
opening quote's offset on an unterminated quote. -/
def tokenizeAux : List Char → Nat → TokMode → Except Nat (List Token)
  | [], _, .ready => .ok []
  | [], i, .word st acc => .ok [⟨acc, st, i⟩]
  | [], _, .quoted openOff _ => .error openOff
  | [], _, .quotedEscape openOff _ => .error openOff
  | c :: rest, i, .ready =>
    if c = ' ' then tokenizeAux rest (i + 1) .ready
    else if c = '"' then tokenizeAux rest (i + 1) (.quoted i "")
    else tokenizeAux rest (i + 1) (.word i (String.singleton c))
  | c :: rest, i, .word st acc =>
    if c = ' ' then
      match tokenizeAux rest (i + 1) .ready with
      | .ok ts => .ok (⟨acc, st, i⟩ :: ts)
      | .error e => .error e
    else tokenizeAux rest (i + 1) (.word st (acc.push c))
  | c :: rest, i, .quoted openOff acc =>
    if c = '"' then
      match tokenizeAux rest (i + 1) .ready with
      | .ok ts => .ok (⟨acc, openOff, i + 1⟩ :: ts)
      | .error e => .error e
    else if c = '\\' then tokenizeAux rest (i + 1) (.quotedEscape openOff acc)
    else tokenizeAux rest (i + 1) (.quoted openOff (acc.push c))
  | c :: rest, i, .quotedEscape openOff acc =>
    if c = '"' then tokenizeAux rest (i + 1) (.quoted openOff (acc.push '"'))
    else tokenizeAux rest (i + 1) (.quoted openOff ((acc.push '\\').push c))

/-- Modelled from the spec: `tokenize(line)` of `§4.1`. The error value is
the offset of the unterminated opening quote. -/
def tokenize (line : String) : Except Nat (List Token) :=
  tokenizeAux line.toList 0 .ready

/-- The argument-parser kinds used by the model; the argument-parser registry
(`§4.2`) is not among the sources, so a representative family is modelled: a
single-word parser, an integer parser, and a greedy rest-of-line parser. -/
inductive ParserKind where
  | word
  | int
  | greedy
deriving DecidableEq, Repr

/-- Whether a token spells an integer: an optional leading minus sign
followed by a nonempty run of decimal digits. -/
def isIntString (s : String) : Bool :=
  match s.toList with
  | [] => false
  | '-' :: rest => !rest.isEmpty && rest.all (fun c => c.isDigit)
  | l => l.all (fun c => c.isDigit)

/-- Modelled from the spec: a parser consumes a prefix of the remaining
tokens and reports how many tokens it consumed, or fails. -/
def parseArg : ParserKind → List String → Option Nat
  | .word, [] => none
  | .word, _ :: _ => some 1
  | .int, [] => none
  | .int, t :: _ => if isIntString t then some 1 else none
  | .greedy, [] => none
  | .greedy, ts => some ts.length

/-- Modelled from the spec: each parser kind exposes suggestion candidates at
the current partial token, usable even when `parse` would fail. -/
def parserSuggest : ParserKind → String → List String
  | .word, _ => []
  | .int, pfx => (["0", "1"]).filter (fun c => pfx.isPrefixOf c)
  | .greedy, _ => []

/-- Whether a grammar node is a literal or a typed argument. -/
inductive NodeKind where
  | literal (name : String)
  | argument (name : String) (pk : ParserKind)
deriving DecidableEq, Repr

mutual
/-- Modelled from the spec: a node of a command's grammar tree (`§3`): its
kind, an optional handler id (the `Executor`, present on executable nodes),
an optional required permission level (the node's permission predicate), and
its ordered children. -/
inductive CommandNode where
  | mk (kind : NodeKind) (handler : Option Nat) (minLvl : Option PermissionLvl)
      (children : NodeList)

/-- An ordered sequence of sibling nodes (order is matching precedence). -/
inductive NodeList where
  | nil
  | cons (head : CommandNode) (tail : NodeList)
end

/-- The node's kind. -/
def CommandNode.kind : CommandNode → NodeKind
  | .mk k _ _ _ => k

/-- The node's optional handler id. -/
def CommandNode.handler : CommandNode → Option Nat
  | .mk _ h _ _ => h

/-- The node's optional required permission level. -/
def CommandNode.minLvl : CommandNode → Option PermissionLvl
  | .mk _ _ m _ => m

/-- Whether the sender passes a node's optional permission predicate. -/
def nodePermPasses (sender : CommandSender) (m : Option PermissionLvl) : Bool :=
  match m with
  | none => true
  | some lvl => sender.has_permission_lvl lvl

/-- The kinds of traversal failure (`§7`): a non-executable node with no
tokens left, a failed node permission predicate at an executable node, no
child accepting the next token, or an argument parser rejecting its input. -/
inductive TraverseErrKind where
  | incompleteCommand
  | incompletePermissions
  | noMatchingBranch
  | parseFailure
deriving DecidableEq, Repr

/-- A traversal error: the token index reached when the branch failed, and
the error kind. -/
structure TraverseErr where
  offset : Nat
  kind : TraverseErrKind
deriving DecidableEq, Repr

/-- Combines the deepest error recorded so far with a newly failed branch's
error, keeping the new one only when it is strictly deeper
(first-registered-wins tie-break). -/
def mergeBest : Option TraverseErr → TraverseErr → TraverseErr
  | none, e => e
  | some b, e => if b.offset < e.offset then e else b

mutual
/-- Modelled from the spec: the execution-mode traversal (`§4.3`) at a node
whose own token(s) have already been consumed, positioned at token index `i`.
With no tokens left, succeeds iff the node has an `Executor` and the sender
passes its permission predicate; otherwise tries the children in order. -/
def traverseNode (sender : CommandSender) (tokens : List String) :
    CommandNode → Nat → Except TraverseErr Nat
  | .mk _ h m ch, i =>
    if i < tokens.length then
      traverseChildren sender tokens ch i none
    else
      match h with
      | some hid =>
        if nodePermPasses sender m then .ok hid
        else .error ⟨i, .incompletePermissions⟩
      | none => .error ⟨i, .incompleteCommand⟩

/-- Modelled from the spec: tries the sibling branches in order; a branch
that matches is entered, a branch that fails records its error, and when no
branch accepts, the deepest recorded error is reported (`§4.3` step 4). -/
def traverseChildren (sender : CommandSender) (tokens : List String) :
    NodeList → Nat → Option TraverseErr → Except TraverseErr Nat
  | .nil, i, best =>
    .error (match best with
            | some e => e
            | none => ⟨i, .noMatchingBranch⟩)
  | .cons c rest, i, best =>
    match (match c with
           | .mk (.literal name) _ m _ =>
             if tokens.getD i "" == name && nodePermPasses sender m then
               traverseNode sender tokens c (i + 1)
             else Except.error ⟨i, .noMatchingBranch⟩
           | .mk (.argument _ pk) _ m _ =>
             if nodePermPasses sender m then
               match parseArg pk (tokens.drop i) with
               | some k => traverseNode sender tokens c (i + k)
               | none => Except.error ⟨i, .parseFailure⟩
             else Except.error ⟨i, .noMatchingBranch⟩ : Except TraverseErr Nat) with
    | .ok hid => .ok hid
    | .error e => traverseChildren sender tokens rest i (some (mergeBest best e))
end

/-- The attempt to enter one child branch: a literal child must match the
next token exactly (and pass its permission predicate), an argument child
runs its parser on the remaining tokens; on entry, traversal recurses past
the consumed token(s). -/
def tryChild (sender : CommandSender) (tokens : List String) (c : CommandNode)
    (i : Nat) : Except TraverseErr Nat :=
  match c with
  | .mk (.literal name) _ m _ =>
    if tokens.getD i "" == name && nodePermPasses sender m then
      traverseNode sender tokens c (i + 1)
    else Except.error ⟨i, .noMatchingBranch⟩
  | .mk (.argument _ pk) _ m _ =>
    if nodePermPasses sender m then
      match parseArg pk (tokens.drop i) with
      | some k => traverseNode sender tokens c (i + k)
      | none => Except.error ⟨i, .parseFailure⟩
    else Except.error ⟨i, .noMatchingBranch⟩

/-- `traverseChildren` on a `cons` is exactly: attempt the head branch via
`tryChild`, and on failure continue with the deepest-error accumulator
updated by `mergeBest`. -/
theorem traverseChildren_cons (sender : CommandSender) (tokens : List String)
    (c : CommandNode) (rest : NodeList) (i : Nat) (best : Option TraverseErr) :
    traverseChildren sender tokens (.cons c rest) i best =
      match tryChild sender tokens c i with
      | .ok hid => .ok hid
      | .error e => traverseChildren sender tokens rest i (some (mergeBest best e)) := by
  cases c with
  | mk k h m ch => cases k <;> rfl

/-- Modelled from the spec: a registration entry of the dispatcher proper
(`§3`): a key (a canonical name or an alias), the command's grammar tree,
the permission node, and the minimum permission level. -/
structure RegEntry where
  name : String
  root : CommandNode
  permissionNode : String
  minimumLevel : PermissionLvl

/-- The result type of a failed dispatch (`§7`). -/
inductive CmdError where
  | unterminatedQuote (offset : Nat)
  | unknownCommand
  | permissionDenied
  | traversal (e : TraverseErr)
deriving DecidableEq, Repr

/-- Resolves a leading literal to its registration entry; the last
registration of a name wins (`§4.4`: re-registering overwrites). -/
def findEntry (regs : List RegEntry) (name : String) : Option RegEntry :=
  regs.reverse.find? (fun r => r.name == name)

/-- Modelled from the spec: `dispatch` after tokenization (`§4.4`): resolve
the leading literal (`UnknownCommand` if absent), check the sender's
permission level and permission node (`PermissionDenied` on failure), then
traverse the tree. `.ok none` is the blank-line "no command" case;
`.ok (some hid)` means the handler with id `hid` was invoked. -/
def dispatchTokens (regs : List RegEntry) (toks : List Token)
    (sender : CommandSender) : Except CmdError (Option Nat) :=
  match toks with
  | [] => .ok none
  | t0 :: _ =>
    match findEntry regs t0.text with
    | none => .error .unknownCommand
    | some entry =>
      if sender.has_permission_lvl entry.minimumLevel
          && sender.has_permission entry.permissionNode then
        match traverseNode sender (toks.map Token.text) entry.root 1 with
        | .ok hid => .ok (some hid)
        | .error e => .error (.traversal e)
      else .error .permissionDenied

/-- Modelled from the spec: the dispatch entry point
`dispatch(raw_line, sender)`. -/
def dispatch (regs : List RegEntry) (line : String) (sender : CommandSender) :
    Except CmdError (Option Nat) :=
  match tokenize line with
  | .error off => .error (.unterminatedQuote off)
  | .ok toks => dispatchTokens regs toks sender

/-- C3: for every registered command and every sender that is strictly below
the entry's minimum level — or that exposes a permission set lacking the
entry's permission node — `dispatch` returns `PermissionDenied` and never
invokes the command's handler. -/
theorem dispatch_permission_denied (regs : List RegEntry) (line : String)
    (sender : CommandSender) (t0 : Token) (rest : List Token) (entry : RegEntry)
    (htok : tokenize line = .ok (t0 :: rest))
    (hfind : findEntry regs t0.text = some entry)
    (hdenied : sender.permission_lvl < entry.minimumLevel
      ∨ ∃ p, sender = .player p ∧ entry.permissionNode ∉ p.permissions) :
    dispatch regs line sender = .error .permissionDenied
    ∧ ∀ hid, dispatch regs line sender ≠ .ok (some hid) := by
  have hcond : (sender.has_permission_lvl entry.minimumLevel
      && sender.has_permission entry.permissionNode) = false := by
    rcases hdenied with hlt | ⟨p, hp, hnode⟩
    · have hfalse : sender.has_permission_lvl entry.minimumLevel = false := by
        rcases hb : sender.has_permission_lvl entry.minimumLevel with _ | _
        · rfl
        · exfalso
          have hle := (has_permission_lvl_le sender entry.minimumLevel).mp hb
          have h1 : entry.minimumLevel.toNat ≤ (sender.permission_lvl).toNat := hle
          have h2 : (sender.permission_lvl).toNat < entry.minimumLevel.toNat := hlt
          omega
      simp [hfalse]
    · subst hp
      have hfalse : CommandSender.has_permission (.player p) entry.permissionNode
          = false := by
        simp [CommandSender.has_permission, List.elem_eq_mem, hnode]
      simp [hfalse]
  have hmain : dispatch regs line sender = .error .permissionDenied := by
    simp [dispatch, htok, dispatchTokens, hfind, hcond]
  exact ⟨hmain, fun hid h => by rw [hmain] at h; exact Except.noConfusion h⟩

/-- The `/stop` registration used as a concrete denied-dispatch input. -/
def stopRoot : CommandNode := .mk (.literal "stop") (some 0) none .nil

/-- The registration entry for `/stop` at minimum level `Four`. -/
def stopEntry : RegEntry := ⟨"stop", stopRoot, "pumpkin.stop", .Four⟩

/-- A level-`Zero` player with an empty permission set. -/
def lowPlayer : Player :=
  ⟨⟨"steve"⟩, ⟨⟨⟨0, 0, 0⟩, ⟨0⟩⟩⟩, .Zero, []⟩

/-- Witness for C3: the level-`Zero` player dispatching `stop` (registered at
minimum level `Four`) is denied. -/
theorem dispatch_permission_denied_witness :
    tokenize "stop" = .ok [⟨"stop", 0, 4⟩]
    ∧ findEntry [stopEntry] "stop" = some stopEntry
    ∧ CommandSender.permission_lvl (.player lowPlayer) < stopEntry.minimumLevel
    ∧ (dispatch [stopEntry] "stop" (.player lowPlayer) = .error .permissionDenied
       ∧ ∀ hid, dispatch [stopEntry] "stop" (.player lowPlayer) ≠ .ok (some hid)) :=
  ⟨rfl, rfl, by decide,
    dispatch_permission_denied [stopEntry] "stop" (.player lowPlayer)
      ⟨"stop", 0, 4⟩ [] stopEntry rfl rfl (Or.inl (by decide))⟩

/-- When both of two sibling branches fail and the first-listed one failed
strictly deeper, the reported error is the deeper one in either listing
order; when both failed at the same depth, the first-listed branch's error
is reported. -/
theorem traverseChildren_two (sender : CommandSender) (tokens : List String)
    (b1 b2 : CommandNode) (i : Nat) (e1 e2 : TraverseErr)
    (h1 : tryChild sender tokens b1 i = .error e1)
    (h2 : tryChild sender tokens b2 i = .error e2) :
    (e2.offset < e1.offset →
      traverseChildren sender tokens (.cons b1 (.cons b2 .nil)) i none = .error e1
      ∧ traverseChildren sender tokens (.cons b2 (.cons b1 .nil)) i none = .error e1)
    ∧ (e1.offset = e2.offset →
      traverseChildren sender tokens (.cons b1 (.cons b2 .nil)) i none = .error e1
      ∧ traverseChildren sender tokens (.cons b2 (.cons b1 .nil)) i none = .error e2) := by
  constructor
  · intro hd
    have hnd : ¬ e1.offset < e2.offset := by omega
    constructor
    · simp only [traverseChildren_cons, h1, h2]
      simp [traverseChildren, mergeBest, hnd]
    · simp only [traverseChildren_cons, h2, h1]
      simp [traverseChildren, mergeBest, hd]
  · intro heq
    have hnd : ¬ e1.offset < e2.offset := by omega
    have hnd2 : ¬ e2.offset < e1.offset := by omega
    constructor
    · simp only [traverseChildren_cons, h1, h2]
      simp [traverseChildren, mergeBest, hnd]
    · simp only [traverseChildren_cons, h2, h1]
      simp [traverseChildren, mergeBest, hnd2]

/-- C4: when traversal fails because no child accepts the next token,
`dispatch` reports the error of the sibling branch that consumed the most
tokens before failing, regardless of the registration order of the two
branches; at equal depth, the first-registered branch's error is reported. -/
theorem dispatch_longest_match (name pn : String) (lvl : PermissionLvl)
    (b1 b2 : CommandNode) (line : String) (t0 t1 : Token) (rest : List Token)
    (e1 e2 : TraverseErr)
    (htok : tokenize line = .ok (t0 :: t1 :: rest))
    (hname : t0.text = name)
    (h1 : tryChild .console ((t0 :: t1 :: rest).map Token.text) b1 1 = .error e1)
    (h2 : tryChild .console ((t0 :: t1 :: rest).map Token.text) b2 1 = .error e2)
    (hd : e2.offset < e1.offset) :
    dispatch [⟨name, .mk (.literal name) none none (.cons b1 (.cons b2 .nil)), pn, lvl⟩]
        line .console = .error (.traversal e1)
    ∧ dispatch [⟨name, .mk (.literal name) none none (.cons b2 (.cons b1 .nil)), pn, lvl⟩]
        line .console = .error (.traversal e1) := by
  have hpair := (traverseChildren_two .console ((t0 :: t1 :: rest).map Token.text)
    b1 b2 1 e1 e2 h1 h2).1 hd
  have hlen : 1 < ((t0 :: t1 :: rest).map Token.text).length := by simp
  simp only [List.map_cons, hname] at hpair
  constructor
  · simp [dispatch, htok, dispatchTokens, findEntry, hname,
      CommandSender.has_permission_lvl, CommandSender.has_permission,
      traverseNode, hlen, hpair.1]
  · simp [dispatch, htok, dispatchTokens, findEntry, hname,
      CommandSender.has_permission_lvl, CommandSender.has_permission,
      traverseNode, hlen, hpair.2]

/-- A literal branch `sub leaf` that, on input `cmd sub xyz`, fails two
tokens in. -/
def deepLiteralBranch : CommandNode :=
  .mk (.literal "sub") none none
    (.cons (.mk (.literal "leaf") (some 7) none .nil) .nil)

/-- An integer-argument branch that, on input `cmd sub xyz`, fails
immediately. -/
def shallowArgBranch : CommandNode := .mk (.argument "n" .int) none none .nil

/-- Witness for C4: on `cmd sub xyz`, the literal branch fails at token
index 2, the argument branch at token index 1, and both registration orders
report the deeper error. -/
theorem dispatch_longest_match_witness :
    tokenize "cmd sub xyz"
      = .ok [⟨"cmd", 0, 3⟩, ⟨"sub", 4, 7⟩, ⟨"xyz", 8, 11⟩]
    ∧ tryChild .console ["cmd", "sub", "xyz"] deepLiteralBranch 1
      = .error ⟨2, .noMatchingBranch⟩
    ∧ tryChild .console ["cmd", "sub", "xyz"] shallowArgBranch 1
      = .error ⟨1, .parseFailure⟩
    ∧ (dispatch [⟨"cmd", .mk (.literal "cmd") none none
          (.cons deepLiteralBranch (.cons shallowArgBranch .nil)), "pumpkin.cmd", .Zero⟩]
        "cmd sub xyz" .console = .error (.traversal ⟨2, .noMatchingBranch⟩)
      ∧ dispatch [⟨"cmd", .mk (.literal "cmd") none none
          (.cons shallowArgBranch (.cons deepLiteralBranch .nil)), "pumpkin.cmd", .Zero⟩]
        "cmd sub xyz" .console = .error (.traversal ⟨2, .noMatchingBranch⟩)) :=
  ⟨rfl, rfl, rfl,
    dispatch_longest_match "cmd" "pumpkin.cmd" .Zero deepLiteralBranch shallowArgBranch
      "cmd sub xyz" ⟨"cmd", 0, 3⟩ ⟨"sub", 4, 7⟩ [⟨"xyz", 8, 11⟩]
      ⟨2, .noMatchingBranch⟩ ⟨1, .parseFailure⟩ rfl rfl rfl rfl (by decide)⟩

mutual
/-- Modelled from the spec: the suggest-mode traversal (`§4.3`, `§4.5`) at a
node whose own token(s) have been consumed. With zero tokens remaining it
returns no further candidates; otherwise it collects candidates from the
children. -/
def suggestNode (sender : CommandSender) (tokens : List String) :
    CommandNode → Nat → List String
  | .mk _ _ _ ch, i =>
    if i < tokens.length then suggestChildren sender tokens ch i
    else []

/-- Modelled from the spec: for every reachable child whose permission
passes, either its literal text or its parser's suggestion list at the
current partial token (the last token); for earlier, complete tokens it
descends through matching children, and a failing parser mid-line
contributes no candidates but does not abort the collection. -/
def suggestChildren (sender : CommandSender) (tokens : List String) :
    NodeList → Nat → List String
  | .nil, _ => []
  | .cons c rest, i =>
    (if i + 1 = tokens.length then
      match c with
      | .mk (.literal nm) _ m _ =>
        if nodePermPasses sender m && (tokens.getD i "").isPrefixOf nm then [nm]
        else []
      | .mk (.argument _ pk) _ m _ =>
        if nodePermPasses sender m then parserSuggest pk (tokens.getD i "")
        else []
    else
      match c with
      | .mk (.literal nm) _ m _ =>
        if tokens.getD i "" == nm && nodePermPasses sender m then
          suggestNode sender tokens c (i + 1)
        else []
      | .mk (.argument _ pk) _ m _ =>
        if nodePermPasses sender m then
          match parseArg pk (tokens.drop i) with
          | some k => suggestNode sender tokens c (i + k)
          | none => []
        else [])
    ++ suggestChildren sender tokens rest i
end

/-- Whether the sender passes a registration entry's level and
permission-node checks. -/
def senderPassesEntry (sender : CommandSender) (e : RegEntry) : Bool :=
  sender.has_permission_lvl e.minimumLevel
    && sender.has_permission e.permissionNode

/-- Modelled from the spec: the suggestion entry point
`suggest(partial_line, cursor, sender)` (`§4.5`): tokenizes the line up to
the cursor; when the leading token is still being typed, the candidates are
the registered names the sender may use, filtered by prefix; otherwise it
resolves the leading literal and replays the traversal in suggest mode.
Never invokes a handler. -/
def suggest (regs : List RegEntry) (line : String) (cursor : Nat)
    (sender : CommandSender) : List String :=
  match tokenizeAux (line.toList.take cursor) 0 .ready with
  | .error _ => []
  | .ok [] => (regs.filter (senderPassesEntry sender)).map (fun r => r.name)
  | .ok [t] =>
    (regs.filter (fun r => senderPassesEntry sender r
      && t.text.isPrefixOf r.name)).map (fun r => r.name)
  | .ok (t0 :: t1 :: ts) =>
    match findEntry regs t0.text with
    | none => []
    | some e =>
      if senderPassesEntry sender e then
        suggestNode sender ((t0 :: t1 :: ts).map Token.text) e.root 1
      else []

/-- `suggest` with the registration table threaded through the call, so that
a call's effect on the registry is part of its result. -/
def suggestSt (regs : List RegEntry) (line : String) (cursor : Nat)
    (sender : CommandSender) : List String × List RegEntry :=
  (suggest regs line cursor sender, regs)

/-- C7: a `suggest` call leaves the registration table unchanged, and a
second call with identical partial line, cursor, and sender — run against
the registry state left by the first call — returns the identical ordered
candidate sequence. -/
theorem suggest_idempotent (regs : List RegEntry) (line : String)
    (cursor : Nat) (sender : CommandSender) :
    (suggestSt regs line cursor sender).2 = regs
    ∧ (suggestSt (suggestSt regs line cursor sender).2 line cursor sender).1
      = (suggestSt regs line cursor sender).1 :=
  ⟨rfl, rfl⟩

end Pumpkin
